import Mathlib

set_option maxHeartbeats 1000000
set_option maxRecDepth 8000

/-! ## Python value domain -/

inductive PyValue where
  | pyNone : PyValue
  | pyBool : Bool → PyValue
  | pyInt : Int → PyValue
  | pyStr : String → PyValue
  | pyList : List PyValue → PyValue
  | pyDict : List (String × PyValue) → PyValue

/-- Lookup in an association list, first binding wins (Python dict lookup). -/
def dictLookup {α : Type} (k : String) : List (String × α) → Option α
  | [] => none
  | (k', v) :: rest => if k' = k then some v else dictLookup k rest

/-- Python dictionary update `d[k] = v`: overwrite the binding in place if
the key is present, otherwise append it (CPython preserves insertion order). -/
def dictInsert {α : Type} (k : String) (v : α) : List (String × α) → List (String × α)
  | [] => [(k, v)]
  | (k', v') :: rest => if k' = k then (k, v) :: rest else (k', v') :: dictInsert k v rest

/-! ## The JSON extractor (`extract_json`, tool.py lines 192–206)

```python
def extract_json(text: str) -> Optional[str]:
    stack = []
    start = text.find("{")
    if start == -1:
        return None
    for i in range(start, len(text)):
        if text[i] == "{":
            stack.append("{")
        elif text[i] == "}":
            stack.pop()
            if not stack:
                return text[start : i + 1]
    return None
```

`scanLoop` is the `for` loop.  `stack` and the consumed slice `acc` are
threaded explicitly; `list.pop()` on an empty list raises `IndexError`, so
that case is an `Except.error` — `extract_json_total` below proves the
error is unreachable.  Strings are modelled as their character lists. -/

def scanLoop : List Char → List Char → List Char → Except Unit (Option (List Char))
  | _, _, [] => .ok none
  | stack, acc, c :: rest =>
    if c = '{' then scanLoop ('{' :: stack) (acc ++ [c]) rest
    else if c = '}' then
      match stack with
      | [] => .error ()
      | _ :: stack' =>
        if stack'.isEmpty then .ok (some (acc ++ [c]))
        else scanLoop stack' (acc ++ [c]) rest
    else scanLoop stack (acc ++ [c]) rest

/-- `text.find("{")` / slicing: drop up to the first brace and run the loop.
`.ok none` is the `start == -1` early return. -/
def extract_json_run (text : List Char) : Except Unit (Option (List Char)) :=
  if text.contains '{' then scanLoop [] [] (text.dropWhile (fun c => c != '{'))
  else .ok none

/-- The extractor as the callers see it (the `IndexError` case never occurs,
see `extract_json_total`). -/
def extract_json (text : List Char) : Option (List Char) :=
  match extract_json_run text with
  | .ok r => r
  | .error _ => none

/-! ### Spec-side characterization of the extractor

Following the claim's words: the result is the substring "from the first
`\x7b` through the `\x7d` that returns the nesting depth to zero", null when no
`\x7b` exists or the depth never returns to zero.  Depth is the running count
of opening minus closing braces. -/

def braceDelta (c : Char) : Int :=
  if c = '{' then 1 else if c = '}' then -1 else 0

def depthSum (l : List Char) : Int :=
  (l.map braceDelta).sum

/-- Nesting depth after consuming the first `k` characters of `s`. -/
def depthAt (s : List Char) (k : Nat) : Int :=
  depthSum (s.take k)

/-- Spec-side extractor, written from the claim: locate the first brace; the
answer is the prefix of the remaining text ending at the first position where
the nesting depth returns to zero; null when there is no brace or no such
position. -/
def specExtract (text : List Char) : Option (List Char) :=
  if text.contains '{' then
    let s := text.dropWhile (fun c => c != '{')
    ((List.range s.length).find? (fun j => depthAt s (j + 1) == 0)).map
      (fun j => s.take (j + 1))
  else none

/-! ## The task resolver / dispatcher (`tool_calling`, tool.py lines 152–189)

```python
def tool_calling(task: str) -> Any:
    tools = ToolManager.load_tools()
    prompt = ...
    response = llm.invoke(prompt).content
    tool_data = extract_json(response)
    if not tool_data or "None" in tool_data:
        return llm.invoke(task).content
    try:
        tool_call = json.loads(tool_data)
        func_name = tool_call["tool_name"]
        arguments = tool_call["arguments"]
        module_path = tool_call["module_path"]
        if func_name in globals():
            return globals()[func_name](**arguments)
        module = importlib.import_module(module_path, package=__package__)
        func = getattr(module, func_name)
        return func(**arguments)
    except (json.JSONDecodeError, ImportError, AttributeError) as e:
        logging.error(f"Tool execution failed: ...")
        return None
```

Exceptions are modelled by `PyExc`.  A tool is any Python callable invoked
with keyword arguments: it either returns a value or raises — `ToolFunc`.
The LLM's selection response and the free-form fallback response are inputs;
`json.loads` (standard library, external) is a parameter of type
`String → Except Unit PyValue` (`.error` = `json.JSONDecodeError`).

`env.globalsTbl` models the bindings of `tool.py`'s module namespace
`globals()` that are callable (the namespace also holds non-callables —
imported modules, the logger — irrelevant to the claims below); crucially it
is a DIFFERENT table from `ToolManager._registered_functions`, which
`tool_calling` never reads.  `env.modules` models the universe of importable
modules as a map from module path to the module's callable attributes. -/

inductive PyExc where
  | jsonDecodeError : PyExc
  | importError : PyExc
  | attributeError : PyExc
  | keyError : String → PyExc
  | typeError : PyExc
  | valueError : PyExc
  | otherError : String → PyExc
deriving DecidableEq, Repr

def ToolFunc : Type :=
  List (String × PyValue) → Except PyExc PyValue

structure DispatchEnv where
  globalsTbl : List (String × ToolFunc)
  modules : List (String × List (String × ToolFunc))

inductive DispatchResult where
  | returned : PyValue → DispatchResult
  | raised : PyExc → DispatchResult

/-- Python subscripting `v[k]` with a string key: mappings yield the value or
`KeyError`; every other value raises `TypeError` (not subscriptable, or
list/str indices must be integers). -/
def pyGetItem (v : PyValue) (k : String) : Except PyExc PyValue :=
  match v with
  | .pyDict entries =>
    match dictLookup k entries with
    | some x => .ok x
    | none => .error (.keyError k)
  | _ => .error .typeError

/-- `f(**arguments)`: the argument after `**` must be a mapping, else
`TypeError`. -/
def asKwargs (v : PyValue) : Except PyExc (List (String × PyValue)) :=
  match v with
  | .pyDict entries => .ok entries
  | _ => .error .typeError

/-- `func_name in globals()` followed by `globals()[func_name]`: only a
string can name a binding; membership of a non-string key is simply false. -/
def globalsMember (tbl : List (String × ToolFunc)) : PyValue → Option ToolFunc
  | .pyStr s => dictLookup s tbl
  | _ => none

/-- `importlib.import_module(module_path, ...)`: a non-string raises
`AttributeError` (`name.startswith` is attempted first), the empty string
raises `ValueError` (sanity check), an unknown path raises `ImportError`. -/
def importModule (modules : List (String × List (String × ToolFunc))) :
    PyValue → Except PyExc (List (String × ToolFunc))
  | .pyStr name =>
    if name = "" then .error .valueError
    else
      match dictLookup name modules with
      | some m => .ok m
      | none => .error .importError
  | _ => .error .attributeError

/-- `getattr(module, func_name)`: a non-string attribute name raises
`TypeError`; a missing attribute raises `AttributeError`. -/
def getAttrFn (attrs : List (String × ToolFunc)) : PyValue → Except PyExc ToolFunc
  | .pyStr n =>
    match dictLookup n attrs with
    | some f => .ok f
    | none => .error .attributeError
  | _ => .error .typeError

/-- The `except (json.JSONDecodeError, ImportError, AttributeError)` tuple. -/
def isCaught : PyExc → Bool
  | .jsonDecodeError => true
  | .importError => true
  | .attributeError => true
  | _ => false

/-- The body of the `try:` block of `tool_calling`, from `json.loads` to the
invocation, as a single exception-propagating computation. -/
def toolCallingBody (env : DispatchEnv) (jsonParse : String → Except Unit PyValue)
    (toolData : List Char) : Except PyExc PyValue :=
  match jsonParse (String.mk toolData) with
  | .error _ => .error .jsonDecodeError
  | .ok toolCall =>
    match pyGetItem toolCall "tool_name" with
    | .error e => .error e
    | .ok funcName =>
      match pyGetItem toolCall "arguments" with
      | .error e => .error e
      | .ok arguments =>
        match pyGetItem toolCall "module_path" with
        | .error e => .error e
        | .ok modulePathV =>
          match globalsMember env.globalsTbl funcName with
          | some f =>
            match asKwargs arguments with
            | .error e => .error e
            | .ok kwargs => f kwargs
          | none =>
            match importModule env.modules modulePathV with
            | .error e => .error e
            | .ok attrs =>
              match getAttrFn attrs funcName with
              | .error e => .error e
              | .ok f =>
                match asKwargs arguments with
                | .error e => .error e
                | .ok kwargs => f kwargs

/-- Python's substring test `needle in hay`. -/
def containsSub (needle : List Char) : List Char → Bool
  | [] => needle.isEmpty
  | c :: rest => needle.isPrefixOf (c :: rest) || containsSub needle rest

/-- The literal token `"None"` tested by `"None" in tool_data`. -/
def noneTok : List Char :=
  "None".data

/-- `tool_calling`, with the two LLM responses (the selection response and
the free-form fallback response) and `json.loads` as parameters. -/
def tool_calling (env : DispatchEnv) (jsonParse : String → Except Unit PyValue)
    (selResponse fallbackResponse : String) : DispatchResult :=
  match extract_json selResponse.data with
  | none => .returned (.pyStr fallbackResponse)
  | some toolData =>
    if toolData.isEmpty || containsSub noneTok toolData then
      .returned (.pyStr fallbackResponse)
    else
      match toolCallingBody env jsonParse toolData with
      | .ok v => .returned v
      | .error e => if isCaught e then .returned .pyNone else .raised e

/-! ## Static registration (`ToolManager`, `function_tool`, tool.py lines 20–108)

```python
class ToolManager:
    _registered_functions: Dict[str, Callable] = {}
    @classmethod
    def register_function(cls, func, metadata):
        cls._registered_functions[func.__name__] = func
        tools = cls.load_tools()
        tools[func.__name__] = metadata
        cls.save_tools(tools)

def function_tool(func):
    @wraps(func)
    def wrapper(*args, **kwargs):
        return func(*args, **kwargs)
    signature = inspect.signature(func)
    module_path = "__runtime__"
    if module_path == "__runtime__":
        metadata = {
            "tool_name": func.__name__,
            "arguments": {name: (str(param.annotation) if ... else "Any") ...},
            "return": (str(signature.return_annotation) if ... else "Any"),
            "docstring": (func.__doc__ or "").strip(),
            "module_path": module_path,
            "tool_call_id": "tool_" + str(uuid.uuid4()),
            "is_runtime": module_path == "__runtime__",
        }
        ToolManager.register_function(func, metadata)
    return wrapper
```

`ToolState` is the mutable state: `_registered_functions` plus the persisted
`tools.json` document.  A function declaration is abstracted by `FuncSig`:
its name, its ordered parameter list with the stringified annotation of each
parameter (`none` = unannotated; `inspect` guarantees parameter names are
unique), the stringified return annotation and the docstring.  `uuid.uuid4`
is the `freshId` parameter. -/

structure ToolState where
  registered : List (String × ToolFunc)
  tools : List (String × PyValue)

def ToolManager.register_function (name : String) (f : ToolFunc) (metadata : PyValue)
    (st : ToolState) : ToolState :=
  { registered := dictInsert name f st.registered
    tools := dictInsert name metadata st.tools }

structure FuncSig where
  name : String
  params : List (String × Option String)
  returnAnn : Option String
  doc : Option String

/-- `str(annotation) if annotation != empty else "Any"`. -/
def annStr : Option String → String
  | some a => a
  | none => "Any"

/-- The entry list of the `metadata` dictionary built by `function_tool`. -/
def function_tool_metadata (sig : FuncSig) (freshId : String) : List (String × PyValue) :=
  [("tool_name", .pyStr sig.name),
   ("arguments", .pyDict (sig.params.map (fun p => (p.1, PyValue.pyStr (annStr p.2))))),
   ("return", .pyStr (annStr sig.returnAnn)),
   ("docstring", .pyStr ((sig.doc.getD "").trim)),
   ("module_path", .pyStr "__runtime__"),
   ("tool_call_id", .pyStr ("tool_" ++ freshId)),
   ("is_runtime", .pyBool ("__runtime__" = "__runtime__"))]

/-- The registration side effect of the `function_tool` decorator. -/
def function_tool (sig : FuncSig) (f : ToolFunc) (freshId : String)
    (st : ToolState) : ToolState :=
  let module_path := "__runtime__"
  if module_path = "__runtime__" then
    ToolManager.register_function sig.name f (.pyDict (function_tool_metadata sig freshId)) st
  else st

/-- Repeated static registration: fold `function_tool` over a sequence of
declarations. -/
def applyFunctionToolRegs (regs : List (FuncSig × ToolFunc × String))
    (st : ToolState) : ToolState :=
  regs.foldl (fun s r => function_tool r.1 r.2.1 r.2.2 s) st

/-! ## Module registration (`register_function`, tool.py lines 111–149)

```python
def register_function(module_path: str) -> None:
    try:
        module = importlib.import_module(module_path, package=__package__)
        module_source = inspect.getsource(module)
    except (ImportError, ValueError) as e:
        raise ValueError(f"Failed to load module ...")
    prompt = (...)
    response = llm.invoke(prompt)
    try:
        new_tools = ast.literal_eval(response.content.strip())
    except (ValueError, SyntaxError) as e:
        raise ValueError(f"Invalid tool format from LLM: ...")
    tools = ToolManager.load_tools()
    for tool in new_tools:
        tool["module_path"] = module_path
        tools[tool["tool_name"]] = tool
        tools[tool["tool_name"]]["tool_call_id"] = "tool_" + str(uuid.uuid4())
    ToolManager.save_tools(tools)
```

The module resolution outcome is the Boolean `resolvable`; the outcome of
`ast.literal_eval` (standard library, external) is the parameter
`parsed : Option PyValue` (`none` = it raised `ValueError`/`SyntaxError`);
`uuid.uuid4` is the stream `freshId : Nat → String` indexed by loop
iteration.  The trace records the `load_tools`/`save_tools` calls.
`RegError.formatError` is the `ValueError("Invalid tool format from LLM")`;
`RegError.resolutionError` the `ValueError("Failed to load module")`.
Iterating a non-iterable raises `TypeError`; iterating a string yields its
characters and a dictionary yields its keys, and item assignment on those
non-dict elements then raises `TypeError`.  (Entries whose `"tool_name"`
value is not a string are modelled as `TypeError`: the registry is modelled
with string keys only — every key the code itself writes is a string.) -/

inductive RegError where
  | resolutionError : RegError
  | formatError : RegError
  | pyTypeError : RegError
  | pyKeyError : String → RegError
deriving DecidableEq, Repr

/-- `for tool in new_tools:` — what Python iteration yields on each value. -/
def iterEntries : PyValue → Except RegError (List PyValue)
  | .pyList xs => .ok xs
  | .pyStr s => .ok (s.data.map (fun c => PyValue.pyStr (String.mk [c])))
  | .pyDict entries => .ok (entries.map (fun kv => PyValue.pyStr kv.1))
  | _ => .error .pyTypeError

/-- The loop body of `register_function`: force `module_path`, upsert under
the entry's `tool_name`, stamp a fresh `tool_call_id` (the stored dict and
the loop variable are the same object, so both mutations land in the stored
record). -/
def processEntries (module_path : String) (freshId : Nat → String) :
    List PyValue → Nat → List (String × PyValue) → Except RegError (List (String × PyValue))
  | [], _, tools => .ok tools
  | entry :: rest, i, tools =>
    match entry with
    | .pyDict kvs =>
      let kvs1 := dictInsert "module_path" (.pyStr module_path) kvs
      match dictLookup "tool_name" kvs1 with
      | none => .error (.pyKeyError "tool_name")
      | some (.pyStr name) =>
        let record := dictInsert "tool_call_id" (.pyStr ("tool_" ++ freshId i)) kvs1
        processEntries module_path freshId rest (i + 1) (dictInsert name (.pyDict record) tools)
      | some _ => .error .pyTypeError
    | _ => .error .pyTypeError

structure RegTrace where
  result : Except RegError (List (String × PyValue))
  loads : Nat
  saves : Nat

/-- `register_function` over a prior persisted registry `tools₀`. -/
def register_function (module_path : String) (resolvable : Bool)
    (parsed : Option PyValue) (freshId : Nat → String)
    (tools₀ : List (String × PyValue)) : RegTrace :=
  if resolvable = false then { result := .error .resolutionError, loads := 0, saves := 0 }
  else
    match parsed with
    | none => { result := .error .formatError, loads := 0, saves := 0 }
    | some v =>
      match iterEntries v with
      | .error e => { result := .error e, loads := 1, saves := 0 }
      | .ok entries =>
        match processEntries module_path freshId entries 0 tools₀ with
        | .error e => { result := .error e, loads := 1, saves := 0 }
        | .ok tools₁ => { result := .ok tools₁, loads := 1, saves := 1 }

/-- A well-formed entry returned by the LLM for module registration: a
mapping whose `"tool_name"` is the string `e.1`, with further fields `e.2`. -/
def mkEntry (e : String × List (String × PyValue)) : PyValue :=
  .pyDict (("tool_name", .pyStr e.1) :: e.2)

/-- What the loop stores for the `i`-th entry: the entry with `module_path`
forced to the requested path and a fresh `tool_call_id` stamped on it. -/
def storedRecord (mp : String) (freshId : Nat → String) (i : Nat)
    (e : String × List (String × PyValue)) : List (String × PyValue) :=
  dictInsert "tool_call_id" (.pyStr ("tool_" ++ freshId i))
    (dictInsert "module_path" (.pyStr mp) (("tool_name", .pyStr e.1) :: e.2))

def regOk : Except RegError (List (String × PyValue)) → Bool
  | .ok _ => true
  | .error _ => false

/-- Lookup of a tool name in the registry a successful run persisted. -/
def resultLookup (tr : RegTrace) (n : String) : Option PyValue :=
  match tr.result with
  | .ok tools => dictLookup n tools
  | .error _ => none

/-! ## Concrete instances used by the counterexamples and witnesses below -/

def c7SigA : FuncSig :=
  { name := "f", params := [("x", some "int")], returnAnn := some "int",
    doc := some "first version" }

def c7SigB : FuncSig :=
  { name := "f", params := [("x", some "str"), ("y", none)], returnAnn := none,
    doc := none }

def c7Fun : ToolFunc := fun _ => .ok .pyNone

def emptyEnv : DispatchEnv := { globalsTbl := [], modules := [] }

/-- The statically registered `add` tool (the spec's end-to-end example). -/
def addFunc : ToolFunc := fun kwargs =>
  match dictLookup "x" kwargs, dictLookup "y" kwargs with
  | some (.pyInt x), some (.pyInt y) => .ok (.pyInt (x + y))
  | _, _ => .error .typeError

def addSig : FuncSig :=
  { name := "add", params := [("x", some "int"), ("y", some "int")],
    returnAnn := some "int", doc := some "Add two numbers." }

/-- State after `@function_tool def add(x, y)` ran in a user module. -/
def c2State : ToolState := function_tool addSig addFunc "11111111" ⟨[], []⟩

/-- The selection the LLM returns for the dispatch of the `add` task. -/
def c2Sel : String :=
  "\x7b\"tool_name\": \"add\", \"arguments\": \x7b\"x\": 2, \"y\": 3\x7d, \"module_path\": \"__runtime__\"\x7d"

/-- `json.loads` on the extracted selection text. -/
def c2Parse : String → Except Unit PyValue := fun s =>
  if s = c2Sel then
    .ok (.pyDict [("tool_name", .pyStr "add"),
      ("arguments", .pyDict [("x", .pyInt 2), ("y", .pyInt 3)]),
      ("module_path", .pyStr "__runtime__")])
  else .error ()

def c3wParse : String → Except Unit PyValue := fun _ => .error ()

def c3Sel : String := "\x7b\"a\": 1\x7d"

def c3Parse : String → Except Unit PyValue := fun s =>
  if s = c3Sel then .ok (.pyDict [("a", .pyInt 1)]) else .error ()

def atErrFunc : ToolFunc := fun _ => .error .attributeError

def c4Env : DispatchEnv := { globalsTbl := [("boom", atErrFunc)], modules := [] }

def c4Sel : String :=
  "\x7b\"tool_name\": \"boom\", \"arguments\": \x7b\x7d, \"module_path\": \"m\"\x7d"

def c4Parse : String → Except Unit PyValue := fun s =>
  if s = c4Sel then
    .ok (.pyDict [("tool_name", .pyStr "boom"), ("arguments", .pyDict []),
      ("module_path", .pyStr "m")])
  else .error ()

def boomFunc : ToolFunc := fun _ => .error (.otherError "Boom")

def c4wEnv : DispatchEnv := { globalsTbl := [("boom", boomFunc)], modules := [] }

/-- Environment for the module-import-resolved path: `boom` is absent from
`globals()`, but module `mymod` is importable and exposes it as an
attribute. -/
def c4iEnv : DispatchEnv :=
  { globalsTbl := [], modules := [("mymod", [("boom", boomFunc)])] }

def c4iSel : String :=
  "\x7b\"tool_name\": \"boom\", \"arguments\": \x7b\x7d, \"module_path\": \"mymod\"\x7d"

def c4iParse : String → Except Unit PyValue := fun s =>
  if s = c4iSel then
    .ok (.pyDict [("tool_name", .pyStr "boom"), ("arguments", .pyDict []),
      ("module_path", .pyStr "mymod")])
  else .error ()

def c5Parse : String → Except Unit PyValue := fun _ => .error ()

/-! ## Association-list dictionary lemmas -/

theorem dictLookup_insert_self {α : Type} (k : String) (v : α) (l : List (String × α)) :
    dictLookup k (dictInsert k v l) = some v := by
  induction l with
  | nil => simp [dictInsert, dictLookup]
  | cons hd tl ih =>
    obtain ⟨k', v'⟩ := hd
    by_cases h : k' = k
    · simp [dictInsert, dictLookup, h]
    · simp [dictInsert, dictLookup, h, ih]

theorem dictLookup_insert_ne {α : Type} {k k' : String} (h : k' ≠ k) (v : α)
    (l : List (String × α)) : dictLookup k (dictInsert k' v l) = dictLookup k l := by
  induction l with
  | nil => simp [dictInsert, dictLookup, h]
  | cons hd tl ih =>
    obtain ⟨k'', v''⟩ := hd
    have h' : ¬k = k' := fun hh => h hh.symm
    by_cases h2 : k'' = k'
    · subst h2
      simp [dictInsert, dictLookup, h, h']
    · by_cases h3 : k'' = k
      · simp [dictInsert, dictLookup, h2, h3, h']
      · simp [dictInsert, dictLookup, h2, h3, ih]

theorem mem_keys_dictInsert {α : Type} {x k : String} {v : α} {l : List (String × α)} :
    x ∈ (dictInsert k v l).map Prod.fst ↔ x = k ∨ x ∈ l.map Prod.fst := by
  induction l with
  | nil => simp [dictInsert]
  | cons hd tl ih =>
    obtain ⟨k', v'⟩ := hd
    by_cases h : k' = k
    · subst h
      simp [dictInsert]
    · simp only [dictInsert, if_neg h, List.map_cons, List.mem_cons, ih]
      tauto

theorem dictInsert_keys_nodup {α : Type} {k : String} {v : α} {l : List (String × α)}
    (h : (l.map Prod.fst).Nodup) : ((dictInsert k v l).map Prod.fst).Nodup := by
  induction l with
  | nil => simp [dictInsert]
  | cons hd tl ih =>
    obtain ⟨k', v'⟩ := hd
    simp only [List.map_cons, List.nodup_cons] at h
    by_cases h2 : k' = k
    · subst h2
      simpa [dictInsert] using h
    · simp only [dictInsert, if_neg h2, List.map_cons, List.nodup_cons]
      refine ⟨fun hmem => ?_, ih h.2⟩
      rcases mem_keys_dictInsert.mp hmem with rfl | hmem2
      · exact h2 rfl
      · exact h.1 hmem2

/-! ### Equivalence of the loop with the depth-counter description -/

theorem depthSum_cons (c : Char) (l : List Char) :
    depthSum (c :: l) = braceDelta c + depthSum l := by
  simp [depthSum]

theorem find?_range_succ_shift (n : Nat) (p : Nat → Bool) :
    (List.range (n + 1)).find? p =
      if p 0 then some 0
      else ((List.range n).find? (fun j => p (j + 1))).map (fun j => j + 1) := by
  rw [List.range_succ_eq_map, List.find?_cons]
  cases h : p 0 with
  | false =>
    simp only [h, Bool.false_eq_true, if_false, List.find?_map]
    rfl
  | true => simp [h]

theorem map_shift_eq {n : Nat} {q p' : Nat → Bool} {F G : Nat → List Char}
    (hpq : ∀ j, q j = p' j) (hFG : ∀ j, F j = G (j + 1)) :
    ((List.range n).find? q).map F =
      (((List.range n).find? p').map (fun j => j + 1)).map G := by
  have h1 : p' = q := funext fun j => (hpq j).symm
  rw [h1, Option.map_map]
  cases hf : (List.range n).find? q with
  | none => rfl
  | some j => simp [Function.comp, hFG]

theorem bool_eq_false_neq_true {b : Bool} (h : b = false) : ¬(b = true) := by
  simp [h]

theorem scanLoop_eq_find (rest : List Char) : ∀ stack acc : List Char, stack ≠ [] →
    scanLoop stack acc rest =
      .ok (((List.range rest.length).find?
              (fun j => (stack.length : Int) + depthSum (rest.take (j + 1)) == 0)).map
            (fun j => acc ++ rest.take (j + 1))) := by
  induction rest with
  | nil =>
    intro stack acc h
    simp [scanLoop]
  | cons c rest ih =>
    intro stack acc h
    rw [List.length_cons, find?_range_succ_shift]
    by_cases hc : c = '{'
    · subst hc
      have hstep : scanLoop stack acc ('{' :: rest) =
          scanLoop ('{' :: stack) (acc ++ ['{']) rest := by
        simp [scanLoop]
      have hp0 : ((stack.length : Int) + depthSum (List.take (0 + 1) ('{' :: rest)) == 0)
          = false := by
        simp [List.take_succ_cons, depthSum_cons, depthSum, braceDelta]
        omega
      rw [hstep, ih ('{' :: stack) (acc ++ ['{']) (by simp),
        if_neg (bool_eq_false_neq_true hp0)]
      refine congrArg Except.ok (map_shift_eq ?_ ?_)
      · intro j
        have hd : ((('{' :: stack).length : Int) + depthSum (rest.take (j + 1)))
            = ((stack.length : Int) + depthSum (List.take (j + 1 + 1) ('{' :: rest))) := by
          rw [List.take_succ_cons, depthSum_cons, List.length_cons]
          simp [braceDelta]
          ring
        exact congrArg (fun z => z == (0 : Int)) hd
      · intro j
        rw [List.take_succ_cons]
        simp
    · by_cases hc2 : c = '}'
      · subst hc2
        cases stack with
        | nil => exact absurd rfl h
        | cons s0 stack' =>
          by_cases hse : stack'.isEmpty
          · have hnil : stack' = [] := by
              cases stack' with
              | nil => rfl
              | cons a b => simp [List.isEmpty] at hse
            subst hnil
            have hp0 : ((([s0] : List Char).length : Int)
                + depthSum (List.take (0 + 1) ('}' :: rest)) == 0) = true := by
              simp [List.take_succ_cons, depthSum_cons, depthSum, braceDelta]
            rw [if_pos hp0]
            simp [scanLoop, List.take_succ_cons]
          · have hne : stack' ≠ [] := by
              cases stack' with
              | nil => simp [List.isEmpty] at hse
              | cons a b => exact List.cons_ne_nil a b
            have hstep : scanLoop (s0 :: stack') acc ('}' :: rest) =
                scanLoop stack' (acc ++ ['}']) rest := by
              simp [scanLoop, hse]
            have hlen : stack'.length ≠ 0 := fun hz => hne (List.eq_nil_of_length_eq_zero hz)
            have hp0 : (((s0 :: stack').length : Int)
                + depthSum (List.take (0 + 1) ('}' :: rest)) == 0) = false := by
              simp [List.take_succ_cons, depthSum_cons, depthSum, braceDelta,
                List.length_cons]
              exact hne
            rw [hstep, ih stack' (acc ++ ['}']) hne, if_neg (bool_eq_false_neq_true hp0)]
            refine congrArg Except.ok (map_shift_eq ?_ ?_)
            · intro j
              have hd : ((stack'.length : Int) + depthSum (rest.take (j + 1)))
                  = (((s0 :: stack').length : Int)
                      + depthSum (List.take (j + 1 + 1) ('}' :: rest))) := by
                rw [List.take_succ_cons, depthSum_cons, List.length_cons]
                simp [braceDelta]
                ring
              exact congrArg (fun z => z == (0 : Int)) hd
            · intro j
              rw [List.take_succ_cons]
              simp
      · have hstep : scanLoop stack acc (c :: rest) =
            scanLoop stack (acc ++ [c]) rest := by
          simp [scanLoop, hc, hc2]
        have hlen : stack.length ≠ 0 := fun hz => h (List.eq_nil_of_length_eq_zero hz)
        have hp0 : ((stack.length : Int) + depthSum (List.take (0 + 1) (c :: rest)) == 0)
            = false := by
          simp [List.take_succ_cons, depthSum_cons, depthSum, braceDelta, hc, hc2]
          exact h
        rw [hstep, ih stack (acc ++ [c]) h, if_neg (bool_eq_false_neq_true hp0)]
        refine congrArg Except.ok (map_shift_eq ?_ ?_)
        · intro j
          have hd : ((stack.length : Int) + depthSum (rest.take (j + 1)))
              = ((stack.length : Int) + depthSum (List.take (j + 1 + 1) (c :: rest))) := by
            rw [List.take_succ_cons, depthSum_cons]
            simp [braceDelta, hc, hc2]
          exact congrArg (fun z => z == (0 : Int)) hd
        · intro j
          rw [List.take_succ_cons]
          simp

theorem dropWhile_brace (l : List Char) (h : l.contains '{' = true) :
    ∃ rest, l.dropWhile (fun c => c != '{') = '{' :: rest := by
  induction l with
  | nil => simp at h
  | cons c l ih =>
    by_cases hc : c = '{'
    · subst hc
      exact ⟨l, by simp [List.dropWhile]⟩
    · have h2 : l.contains '{' = true := by
        simp only [List.contains_cons, Bool.or_eq_true, beq_iff_eq] at h
        rcases h with h | h
        · exact absurd h.symm hc
        · exact h
      obtain ⟨rest, hr⟩ := ih h2
      refine ⟨rest, ?_⟩
      rw [List.dropWhile_cons]
      simp [hc, hr]

theorem extract_json_run_ok (text : List Char) :
    ∃ r, extract_json_run text = Except.ok r := by
  unfold extract_json_run
  by_cases h : text.contains '{'
  · rw [if_pos h]
    obtain ⟨rest, hr⟩ := dropWhile_brace text h
    rw [hr]
    have hstep : scanLoop [] [] ('{' :: rest) = scanLoop ['{'] ([] ++ ['{']) rest := by
      simp [scanLoop]
    rw [hstep]
    exact ⟨_, scanLoop_eq_find rest ['{'] ([] ++ ['{']) (by simp)⟩
  · rw [if_neg h]
    exact ⟨none, rfl⟩

/-- C10: `extract_json` is total and never raises: the `stack.pop()` is always
performed on a non-empty stack, because scanning begins at the first brace
(which is pushed immediately) and the function returns as soon as the stack
empties, so no closing brace is ever processed with an empty stack.  Formally:
the run of the loop with the empty-pop modelled as an error never produces the
error, and agrees with `extract_json` on every input. -/
theorem extract_json_total (text : List Char) :
    extract_json_run text = Except.ok (extract_json text) := by
  obtain ⟨r, hr⟩ := extract_json_run_ok text
  unfold extract_json
  rw [hr]

theorem extract_json_run_eq_spec (text : List Char) :
    extract_json_run text = Except.ok (specExtract text) := by
  by_cases h : text.contains '{'
  · obtain ⟨rest, hr⟩ := dropWhile_brace text h
    unfold extract_json_run specExtract
    rw [if_pos h, if_pos h]
    simp only [hr]
    have hstep : scanLoop [] [] ('{' :: rest) = scanLoop ['{'] ([] ++ ['{']) rest := by
      simp [scanLoop]
    rw [hstep, scanLoop_eq_find rest ['{'] ([] ++ ['{']) (by simp)]
    simp only [List.length_cons]
    rw [find?_range_succ_shift]
    have hp0 : (depthAt ('{' :: rest) (0 + 1) == 0) = false := by
      simp [depthAt, List.take_succ_cons, depthSum_cons, depthSum, braceDelta]
    rw [if_neg (bool_eq_false_neq_true hp0)]
    refine congrArg Except.ok (map_shift_eq ?_ ?_)
    · intro j
      have hd : (((['{'] : List Char).length : Int) + depthSum (rest.take (j + 1)))
          = depthAt ('{' :: rest) (j + 1 + 1) := by
        rw [depthAt, List.take_succ_cons, depthSum_cons]
        simp [braceDelta]
      exact congrArg (fun z => z == (0 : Int)) hd
    · intro j
      rw [List.take_succ_cons]
      simp
  · unfold extract_json_run specExtract
    rw [if_neg h, if_neg h]

/-- C1: for every input string, `extract_json` returns exactly the first
top-level balanced brace-delimited substring — the slice from the first
opening brace through the closing brace that returns the nesting depth to
zero, nested objects and surrounding text tolerated — and returns null when
the string contains no opening brace or the depth never returns to zero
(this is what `specExtract` states, written from the claim's words). -/
theorem extract_json_matches_spec (text : List Char) :
    extract_json text = specExtract text := by
  have hrun := extract_json_run_eq_spec text
  unfold extract_json
  rw [hrun]

/-! ## Dispatcher theorems -/

/-- C2: evaluation of the code at the failing input.  `add` was registered by
static registration, so it sits in `ToolManager._registered_functions` and
would compute `5` on the supplied keyword arguments; but `tool_calling`
consults `globals()` of `tool.py` — which does not contain user-registered
functions — and never reads `_registered_functions`, so it falls through to
`importlib.import_module("__runtime__")`, which fails with `ImportError`,
is caught, and the dispatch returns `None` instead of invoking the
registered function. -/
theorem tool_calling_skips_registered_function :
    (dictLookup "add" c2State.registered).isSome = true
    ∧ addFunc [("x", .pyInt 2), ("y", .pyInt 3)] = .ok (.pyInt 5)
    ∧ tool_calling emptyEnv c2Parse c2Sel "fallback answer" = .returned .pyNone :=
  ⟨rfl, rfl, rfl⟩

theorem tool_calling_of_body_error (env : DispatchEnv)
    (jsonParse : String → Except Unit PyValue) (sel fb : String) (td : List Char)
    (e : PyExc) (h1 : extract_json sel.data = some td)
    (h2 : (td.isEmpty || containsSub noneTok td) = false)
    (h3 : toolCallingBody env jsonParse td = .error e) :
    tool_calling env jsonParse sel fb
      = if isCaught e then .returned .pyNone else .raised e := by
  unfold tool_calling
  rw [h1]
  simp only [h2, Bool.false_eq_true, if_false, h3]

/-- C3 amended: `tool_calling` swallows exactly the exception types named in
its `except` clause — `json.JSONDecodeError`, `ImportError`,
`AttributeError` — resolving them to null; any other failure met while
interpreting the selection (in particular the `KeyError` for a decoded
selection lacking the expected keys) propagates to the caller. -/
theorem tool_calling_lookup_failures (env : DispatchEnv)
    (jsonParse : String → Except Unit PyValue) (sel fb : String) (td : List Char)
    (e : PyExc) (h1 : extract_json sel.data = some td)
    (h2 : (td.isEmpty || containsSub noneTok td) = false)
    (h3 : toolCallingBody env jsonParse td = .error e) :
    tool_calling env jsonParse sel fb
      = if isCaught e then .returned .pyNone else .raised e :=
  tool_calling_of_body_error env jsonParse sel fb td e h1 h2 h3

/-- C3 witness: a selection response whose extracted text fails JSON decoding
resolves to null, not an exception. -/
theorem tool_calling_lookup_failures_witness :
    tool_calling emptyEnv c3wParse "\x7bbad json\x7d" "fallback answer"
      = .returned .pyNone :=
  tool_calling_lookup_failures emptyEnv c3wParse "\x7bbad json\x7d" "fallback answer"
    ("\x7bbad json\x7d".data) .jsonDecodeError rfl rfl rfl

/-- C3 counterexample: the extracted text `\x7b"a": 1\x7d` is valid JSON but not
the expected selection shape; `tool_call["tool_name"]` raises `KeyError`,
which is not in the `except` tuple, so `tool_calling` raises instead of
returning null. -/
theorem tool_calling_raises_keyError :
    tool_calling emptyEnv c3Parse c3Sel "fallback answer"
      = .raised (.keyError "tool_name") := rfl

/-- C4 counterexample: a tool whose own body raises `AttributeError` — the
`try` block wraps the invocation too, so the tool-body exception is caught by
the `except (json.JSONDecodeError, ImportError, AttributeError)` clause and
converted to null instead of propagating. -/
theorem tool_body_attributeError_swallowed :
    atErrFunc [] = .error .attributeError
    ∧ tool_calling c4Env c4Parse c4Sel "fallback answer" = .returned .pyNone :=
  ⟨rfl, rfl⟩

/-- C4 amended: an exception raised by the invoked tool's own body propagates
unmodified to the caller, UNLESS its type is `json.JSONDecodeError`,
`ImportError` or `AttributeError`: those are swallowed by the dispatcher's
`except` clause and converted to null.  The resolution hypothesis `h4` covers
both ways `tool_calling` reaches a tool: found in `globals()`, or absent from
`globals()` and fetched as an attribute of the imported `module_path`. -/
theorem tool_body_exception_policy (env : DispatchEnv)
    (jsonParse : String → Except Unit PyValue) (sel fb : String) (td : List Char)
    (n mp : String) (args : List (String × PyValue)) (f : ToolFunc) (e : PyExc)
    (h1 : extract_json sel.data = some td)
    (h2 : (td.isEmpty || containsSub noneTok td) = false)
    (h3 : jsonParse (String.mk td) = .ok (.pyDict
        [("tool_name", .pyStr n), ("arguments", .pyDict args), ("module_path", .pyStr mp)]))
    (h4 : dictLookup n env.globalsTbl = some f
        ∨ (dictLookup n env.globalsTbl = none ∧ mp ≠ ""
            ∧ ∃ attrs, dictLookup mp env.modules = some attrs
                ∧ dictLookup n attrs = some f))
    (h5 : f args = .error e) :
    tool_calling env jsonParse sel fb
      = if isCaught e then .returned .pyNone else .raised e := by
  have hbody : toolCallingBody env jsonParse td = .error e := by
    unfold toolCallingBody
    rw [h3]
    rcases h4 with h4 | ⟨hg, hmp, attrs, hmod, hattr⟩
    · simp [pyGetItem, dictLookup, globalsMember, asKwargs, h4, h5]
    · simp [pyGetItem, dictLookup, globalsMember, importModule, getAttrFn, asKwargs,
        hg, hmp, hmod, hattr, h5]
  exact tool_calling_of_body_error env jsonParse sel fb td e h1 h2 hbody

/-- C4 witness: a tool-body exception of a type outside the `except` tuple
propagates unmodified, both for a tool resolved via `globals()` and for one
resolved by importing its `module_path` and fetching the attribute. -/
theorem tool_body_exception_policy_witness :
    tool_calling c4wEnv c4Parse c4Sel "fallback answer"
      = .raised (.otherError "Boom")
    ∧ tool_calling c4iEnv c4iParse c4iSel "fallback answer"
      = .raised (.otherError "Boom") :=
  ⟨tool_body_exception_policy c4wEnv c4Parse c4Sel "fallback answer" c4Sel.data
    "boom" "m" [] boomFunc (.otherError "Boom") rfl rfl rfl (Or.inl rfl) rfl,
   tool_body_exception_policy c4iEnv c4iParse c4iSel "fallback answer" c4iSel.data
    "boom" "mymod" [] boomFunc (.otherError "Boom") rfl rfl rfl
    (Or.inr ⟨rfl, by decide, [("boom", boomFunc)], rfl, rfl⟩) rfl⟩

/-- C5: whenever the JSON Extractor yields null on the selection response, or
the extracted text contains the literal token "None", `tool_calling` returns
the content of the second, free-form LLM invocation on the task itself — the
no-suitable-tool fallback — not null and not a parse error. -/
theorem tool_calling_none_fallback (env : DispatchEnv)
    (jsonParse : String → Except Unit PyValue) (sel fb : String)
    (h : extract_json sel.data = none
        ∨ ∃ td, extract_json sel.data = some td ∧ containsSub noneTok td = true) :
    tool_calling env jsonParse sel fb = .returned (.pyStr fb) := by
  unfold tool_calling
  rcases h with h | ⟨td, h1, h2⟩
  · rw [h]
  · rw [h1]
    simp [h2]

/-- C5 witness: the response text `none found: None` has no brace, extraction
yields null, and the dispatch returns the free-form fallback answer. -/
theorem tool_calling_none_fallback_witness :
    tool_calling emptyEnv c5Parse "none found: None" "direct llm answer"
      = .returned (.pyStr "direct llm answer") :=
  tool_calling_none_fallback emptyEnv c5Parse "none found: None" "direct llm answer"
    (Or.inl rfl)

/-! ## Static registration theorems -/

theorem applyFunctionToolRegs_nodup (regs : List (FuncSig × ToolFunc × String)) :
    ∀ st : ToolState, ((st.tools.map Prod.fst)).Nodup →
      (((applyFunctionToolRegs regs st).tools.map Prod.fst)).Nodup := by
  induction regs with
  | nil => intro st h; exact h
  | cons r rest ih =>
    intro st h
    have hstep : applyFunctionToolRegs (r :: rest) st =
        applyFunctionToolRegs rest (function_tool r.1 r.2.1 r.2.2 st) := rfl
    rw [hstep]
    refine ih _ ?_
    simp only [function_tool, ToolManager.register_function, if_pos rfl]
    exact dictInsert_keys_nodup h

/-- C6: for every function registered via the `function_tool` decorator, the
record stored in the Registry under the function's name has `arguments` whose
keys equal exactly the function's declared parameter names, each mapped to
its stringified type annotation or "Any" when unannotated, `return` equal to
the stringified return annotation or "Any", the docstring taken from the
function's documentation string, `module_path` `"__runtime__"`, `is_runtime`
true, and the `tool_call_id` freshly minted at this registration. -/
theorem function_tool_record_fields (sig : FuncSig) (f : ToolFunc) (freshId : String)
    (st : ToolState) :
    dictLookup sig.name (function_tool sig f freshId st).tools
        = some (.pyDict (function_tool_metadata sig freshId))
    ∧ dictLookup "arguments" (function_tool_metadata sig freshId)
        = some (.pyDict (sig.params.map (fun p => (p.1, PyValue.pyStr (annStr p.2)))))
    ∧ (sig.params.map (fun p => (p.1, PyValue.pyStr (annStr p.2)))).map Prod.fst
        = sig.params.map Prod.fst
    ∧ dictLookup "return" (function_tool_metadata sig freshId)
        = some (.pyStr (annStr sig.returnAnn))
    ∧ dictLookup "docstring" (function_tool_metadata sig freshId)
        = some (.pyStr ((sig.doc.getD "").trim))
    ∧ dictLookup "module_path" (function_tool_metadata sig freshId)
        = some (.pyStr "__runtime__")
    ∧ dictLookup "is_runtime" (function_tool_metadata sig freshId)
        = some (.pyBool true)
    ∧ dictLookup "tool_call_id" (function_tool_metadata sig freshId)
        = some (.pyStr ("tool_" ++ freshId)) := by
  refine ⟨?_, ?_, ?_, ?_, ?_, ?_, ?_, ?_⟩
  · simp only [function_tool, ToolManager.register_function, if_pos rfl]
    exact dictLookup_insert_self sig.name _ st.tools
  · rfl
  · simp [List.map_map]
  · rfl
  · rfl
  · rfl
  · rfl
  · rfl

/-- C7: for every tool name and every sequence of registrations, registering
a function with that name last fully overwrites any prior record stored under
the name (the looked-up record is exactly the newest metadata, with the
newest freshly minted call id), and the Registry's key set stays
duplicate-free. -/
theorem function_tool_overwrite (name : String)
    (init : List (FuncSig × ToolFunc × String)) (sigL : FuncSig) (fL : ToolFunc)
    (idL : String) (st : ToolState) (hL : sigL.name = name)
    (hnd : (st.tools.map Prod.fst).Nodup) :
    dictLookup name (applyFunctionToolRegs (init ++ [(sigL, fL, idL)]) st).tools
        = some (.pyDict (function_tool_metadata sigL idL))
    ∧ (((applyFunctionToolRegs (init ++ [(sigL, fL, idL)]) st).tools.map Prod.fst)).Nodup := by
  have happ : applyFunctionToolRegs (init ++ [(sigL, fL, idL)]) st
      = function_tool sigL fL idL (applyFunctionToolRegs init st) := by
    unfold applyFunctionToolRegs
    rw [List.foldl_append]
    rfl
  rw [happ]
  constructor
  · simp only [function_tool, ToolManager.register_function, if_pos rfl]
    rw [← hL]
    exact dictLookup_insert_self sigL.name _ _
  · simp only [function_tool, ToolManager.register_function, if_pos rfl]
    exact dictInsert_keys_nodup (applyFunctionToolRegs_nodup init st hnd)

/-- C7 witness: registering `f` twice leaves exactly the second record under
the key `f`, and no duplicate key. -/
theorem function_tool_overwrite_witness :
    dictLookup "f"
        (applyFunctionToolRegs [(c7SigA, c7Fun, "id-1"), (c7SigB, c7Fun, "id-2")]
          ⟨[], []⟩).tools
        = some (.pyDict (function_tool_metadata c7SigB "id-2"))
    ∧ (((applyFunctionToolRegs [(c7SigA, c7Fun, "id-1"), (c7SigB, c7Fun, "id-2")]
          ⟨[], []⟩).tools.map Prod.fst)).Nodup :=
  function_tool_overwrite "f" [(c7SigA, c7Fun, "id-1")] c7SigB c7Fun "id-2"
    ⟨[], []⟩ rfl (by simp)

/-! ## Module registration theorems -/

theorem processEntries_ne_formatError (mp : String) (freshId : Nat → String) :
    ∀ (entries : List PyValue) (i : Nat) (tools : List (String × PyValue)),
      processEntries mp freshId entries i tools ≠ .error .formatError := by
  intro entries
  induction entries with
  | nil =>
    intro i tools h
    exact Except.noConfusion h
  | cons e rest ih =>
    intro i tools h
    cases e with
    | pyDict kvs =>
      simp only [processEntries] at h
      split at h
      · exact RegError.noConfusion (Except.error.inj h)
      · exact ih _ _ h
      · exact RegError.noConfusion (Except.error.inj h)
    | pyNone => exact RegError.noConfusion (Except.error.inj h)
    | pyBool b => exact RegError.noConfusion (Except.error.inj h)
    | pyInt n => exact RegError.noConfusion (Except.error.inj h)
    | pyStr s => exact RegError.noConfusion (Except.error.inj h)
    | pyList xs => exact RegError.noConfusion (Except.error.inj h)

theorem register_function_some_ne_formatError (mp : String) (v : PyValue)
    (freshId : Nat → String) (tools₀ : List (String × PyValue)) :
    (register_function mp true (some v) freshId tools₀).result
      ≠ .error .formatError := by
  unfold register_function
  intro h
  simp only [Bool.true_eq_false, if_false] at h
  cases hiter : iterEntries v with
  | error e =>
    have he : e = RegError.pyTypeError := by
      cases v <;> simp [iterEntries] at hiter <;> exact hiter.symm
    rw [hiter] at h
    simp only at h
    rw [he] at h
    exact RegError.noConfusion (Except.error.inj h)
  | ok entries =>
    rw [hiter] at h
    simp only at h
    cases hproc : processEntries mp freshId entries 0 tools₀ with
    | error e =>
      rw [hproc] at h
      simp only at h
      rw [h] at hproc
      exact processEntries_ne_formatError mp freshId entries 0 tools₀ hproc
    | ok tools₁ =>
      rw [hproc] at h
      exact Except.noConfusion h

/-- C8 counterexample: an LLM response that literal-evaluates to `5` — not a
list of mapping objects — does NOT produce the FormatError; iterating the
integer raises an uncaught `TypeError` instead. -/
theorem register_function_nonlist_not_formatError :
    (register_function "mymod" true (some (.pyInt 5)) (fun _ => "u") []).result
        = .error .pyTypeError
    ∧ ¬(register_function "mymod" true (some (.pyInt 5)) (fun _ => "u") []).result
        = .error .formatError :=
  ⟨rfl, fun h => RegError.noConfusion (Except.error.inj h)⟩

/-- C8 amended: during Module Registration, `register_function` raises the
FormatError (`ValueError("Invalid tool format from LLM")`) exactly when
literal evaluation of the LLM response raises (`ast.literal_eval` fails with
`ValueError`/`SyntaxError`); a response that evaluates successfully but is
not a list of mapping objects instead triggers an uncaught
`TypeError`/`KeyError` further down, never the FormatError. -/
theorem register_function_formatError_iff (mp : String) (parsed : Option PyValue)
    (freshId : Nat → String) (tools₀ : List (String × PyValue)) :
    (register_function mp true parsed freshId tools₀).result = .error .formatError
      ↔ parsed = none := by
  constructor
  · intro h
    cases parsed with
    | none => rfl
    | some v => exact absurd h (register_function_some_ne_formatError mp v freshId tools₀)
  · intro h
    subst h
    rfl

theorem processEntries_mkEntries (mp : String) (freshId : Nat → String) :
    ∀ (ents : List (String × List (String × PyValue))) (i : Nat)
      (tools : List (String × PyValue)), (ents.map Prod.fst).Nodup →
      ∃ tools₁,
        processEntries mp freshId (ents.map mkEntry) i tools = .ok tools₁
        ∧ (∀ j (hj : j < ents.length),
            dictLookup (ents.get ⟨j, hj⟩).1 tools₁
              = some (.pyDict (storedRecord mp freshId (i + j) (ents.get ⟨j, hj⟩))))
        ∧ (∀ n, n ∉ ents.map Prod.fst → dictLookup n tools₁ = dictLookup n tools) := by
  intro ents
  induction ents with
  | nil =>
    intro i tools _
    exact ⟨tools, rfl, fun j hj => absurd hj (by simp), fun n _ => rfl⟩
  | cons e rest ih =>
    intro i tools hnd
    obtain ⟨name, kvs⟩ := e
    simp only [List.map_cons, List.nodup_cons] at hnd
    have hlk : dictLookup "tool_name"
        (dictInsert "module_path" (.pyStr mp) (("tool_name", .pyStr name) :: kvs))
        = some (.pyStr name) := by
      rw [dictLookup_insert_ne (by decide)]
      simp [dictLookup]
    have hstep : processEntries mp freshId ((( name, kvs) :: rest).map mkEntry) i tools
        = processEntries mp freshId (rest.map mkEntry) (i + 1)
            (dictInsert name (.pyDict (storedRecord mp freshId i (name, kvs))) tools) := by
      simp only [List.map_cons, mkEntry, processEntries, hlk, storedRecord]
    obtain ⟨tools₁, hproc, hlook, hother⟩ :=
      ih (i + 1) (dictInsert name (.pyDict (storedRecord mp freshId i (name, kvs))) tools)
        hnd.2
    refine ⟨tools₁, by rw [hstep]; exact hproc, ?_, ?_⟩
    · intro j hj
      cases j with
      | zero =>
        show dictLookup name tools₁
            = some (PyValue.pyDict (storedRecord mp freshId i (name, kvs)))
        rw [hother name hnd.1, dictLookup_insert_self]
      | succ j' =>
        have hj' : j' < rest.length := Nat.lt_of_succ_lt_succ hj
        show dictLookup (rest.get ⟨j', hj'⟩).1 tools₁
            = some (PyValue.pyDict (storedRecord mp freshId (i + (j' + 1)) (rest.get ⟨j', hj'⟩)))
        rw [show i + (j' + 1) = i + 1 + j' from by omega]
        exact hlook j' hj'
    · intro n hn
      simp only [List.map_cons, List.mem_cons, not_or] at hn
      rw [hother n hn.2, dictLookup_insert_ne (fun hh => hn.1 hh.symm)]

/-- C9: for every successful module registration over a list of well-formed
entries returned by the LLM, the persisted registry stores, under each
entry's tool name, the entry with its `module_path` field forced to the
originally requested module path and a fresh `tool_call_id` minted at its
loop iteration; the registry document is loaded exactly once (before the
loop) and saved exactly once (after all entries are upserted). -/
theorem register_function_batch (mp : String)
    (ents : List (String × List (String × PyValue))) (freshId : Nat → String)
    (tools₀ : List (String × PyValue)) (hnd : (ents.map Prod.fst).Nodup) :
    (register_function mp true (some (.pyList (ents.map mkEntry))) freshId tools₀).loads = 1
    ∧ (register_function mp true (some (.pyList (ents.map mkEntry))) freshId tools₀).saves = 1
    ∧ regOk (register_function mp true (some (.pyList (ents.map mkEntry))) freshId tools₀).result
        = true
    ∧ ∀ j (hj : j < ents.length),
        resultLookup (register_function mp true (some (.pyList (ents.map mkEntry))) freshId tools₀)
            (ents.get ⟨j, hj⟩).1
          = some (.pyDict (storedRecord mp freshId j (ents.get ⟨j, hj⟩)))
        ∧ dictLookup "module_path" (storedRecord mp freshId j (ents.get ⟨j, hj⟩))
            = some (.pyStr mp)
        ∧ dictLookup "tool_call_id" (storedRecord mp freshId j (ents.get ⟨j, hj⟩))
            = some (.pyStr ("tool_" ++ freshId j)) := by
  obtain ⟨tools₁, hproc, hlook, _⟩ :=
    processEntries_mkEntries mp freshId ents 0 tools₀ hnd
  have hreg : register_function mp true (some (.pyList (ents.map mkEntry))) freshId tools₀
      = { result := .ok tools₁, loads := 1, saves := 1 } := by
    unfold register_function
    simp only [Bool.true_eq_false, if_false, iterEntries, hproc]
  refine ⟨by rw [hreg], by rw [hreg], by rw [hreg]; rfl, ?_⟩
  intro j hj
  refine ⟨?_, ?_, ?_⟩
  · rw [hreg]
    have := hlook j hj
    simpa [resultLookup] using this
  · unfold storedRecord
    rw [dictLookup_insert_ne (by decide), dictLookup_insert_self]
  · unfold storedRecord
    rw [dictLookup_insert_self]

/-- C9 witness: one entry `alpha` registered from module `mymod`; the run
loads once, saves once, and stores the forced, freshly stamped record. -/
theorem register_function_batch_witness :
    (register_function "mymod" true (some (.pyList [mkEntry ("alpha", [])]))
        (fun _ => "u") []).loads = 1
    ∧ (register_function "mymod" true (some (.pyList [mkEntry ("alpha", [])]))
        (fun _ => "u") []).saves = 1
    ∧ regOk (register_function "mymod" true (some (.pyList [mkEntry ("alpha", [])]))
        (fun _ => "u") []).result = true
    ∧ resultLookup (register_function "mymod" true (some (.pyList [mkEntry ("alpha", [])]))
        (fun _ => "u") []) "alpha"
        = some (.pyDict (storedRecord "mymod" (fun _ => "u") 0 ("alpha", []))) := by
  obtain ⟨h1, h2, h3, h4⟩ :=
    register_function_batch "mymod" [("alpha", [])] (fun _ => "u") [] (by simp)
  exact ⟨h1, h2, h3, (h4 0 (by decide)).1⟩
